import Mathlib

/-!
# Verification of the fundamentals-ingestion and ratio pipeline

Shallow embedding of the service layer of the stock-analysis engine:
`src/services/analysis.py` (ratio calculator), `src/services/financial_data.py`
(statement ingester and OHLCV fetcher), and the earnings-calendar fetcher
invoked from `src/api/v1/endpoints/data.py`.

Modelling conventions:
* Python floats are modelled as `ℚ` (all computations under scrutiny are
  exact field arithmetic); a pandas `Series` is an association list from
  line-item name to `Option ℚ`, where `none` stands for a JSON `null`/`NaN`
  value and an absent key for a missing line item.
* Python truthiness of a number is `≠ 0`.
* Tickers are `List Char` (Python strings as character sequences);
  `str.upper()` is `List.map Char.toUpper`.
* Dates and periods are `Nat` ordinals (only equality and order are used).
* Exceptions are modelled with `Except`; external I/O (the market-data
  provider, fault injection for the database) is a parameter.
-/

namespace StockEngine

/-- A pandas `Series` of line items: name ↦ optional numeric value
(`none` = null/NaN). -/
abbrev Series := List (String × Option ℚ)

/-- `series.get(key)` of pandas: the value stored at the first occurrence of
`key`, if the key is present. A stored `none` models a null/NaN entry. -/
def Series.get (s : Series) (k : String) : Option ℚ :=
  match s with
  | [] => none
  | p :: rest => if p.1 == k then p.2 else Series.get rest k

/-- `safe_get` from `calculate_financial_ratios` (analysis.py): try the field
names in order and return the first present, non-null value; default 0.
(The source's `float(value) if value != 0 else 0` is the identity on `ℚ`.) -/
def safe_get (series : Series) (keys : List String) : ℚ :=
  match keys with
  | [] => 0
  | k :: rest =>
    match series.get k with
    | some v => v
    | none => safe_get series rest

/-! Field-name alias lists, verbatim from analysis.py. -/

def net_income_keys : List String :=
  ["Net Income", "NetIncome", "Net Income Common Stockholders"]

def book_value_keys : List String :=
  ["Stockholders Equity", "StockholdersEquity",
   "Total Stockholders Equity", "Total Equity"]

def total_assets_keys : List String :=
  ["Total Assets", "TotalAssets"]

def current_assets_keys : List String :=
  ["Current Assets", "CurrentAssets", "Total Current Assets"]

def current_liabilities_keys : List String :=
  ["Current Liabilities", "CurrentLiabilities", "Total Current Liabilities"]

def retained_earnings_keys : List String :=
  ["Retained Earnings", "RetainedEarnings"]

def ebit_keys : List String :=
  ["EBIT", "Operating Income", "OperatingIncome"]

def interest_expense_keys : List String :=
  ["Interest Expense", "InterestExpense", "Interest Expense Non Operating"]

def tax_provision_keys : List String :=
  ["Tax Provision", "TaxProvision", "Income Tax Expense"]

def total_liabilities_keys : List String :=
  ["Total Liabilities Net Minority Interest", "TotalLiabilitiesNetMinorityInterest",
   "Total Liabilities", "TotalLiabilities"]

def total_revenue_keys : List String :=
  ["Total Revenue", "TotalRevenue", "Revenue"]

/-! The intermediate quantities of `calculate_financial_ratios`, one `def`
per local variable of the source. -/

def net_income (inc : Series) : ℚ := safe_get inc net_income_keys

def book_value (bs : Series) : ℚ := safe_get bs book_value_keys

def total_assets (bs : Series) : ℚ := safe_get bs total_assets_keys

def current_assets (bs : Series) : ℚ := safe_get bs current_assets_keys

def current_liabilities (bs : Series) : ℚ := safe_get bs current_liabilities_keys

/-- `working_capital = current_assets - current_liabilities if current_assets
and current_liabilities else 0`. -/
def working_capital (bs : Series) : ℚ :=
  if current_assets bs ≠ 0 ∧ current_liabilities bs ≠ 0 then
    current_assets bs - current_liabilities bs
  else 0

def retained_earnings (bs : Series) : ℚ := safe_get bs retained_earnings_keys

def interest_expense (inc : Series) : ℚ := safe_get inc interest_expense_keys

def tax_provision (inc : Series) : ℚ := safe_get inc tax_provision_keys

/-- EBIT: the looked-up `['EBIT', 'Operating Income', 'OperatingIncome']`
value; if that is falsy, `net_income + abs(interest_expense) + tax_provision
if net_income else 0`. -/
def ebit (inc : Series) : ℚ :=
  let e := safe_get inc ebit_keys
  if e ≠ 0 then e
  else if net_income inc ≠ 0 then
    net_income inc + |interest_expense inc| + tax_provision inc
  else 0

def total_liabilities (bs : Series) : ℚ := safe_get bs total_liabilities_keys

def total_revenue (inc : Series) : ℚ := safe_get inc total_revenue_keys

/-- The derived ratio bundle returned by the ratio calculator (not persisted). -/
structure RatioBundle where
  p_e_ratio : Option ℚ
  p_b_ratio : Option ℚ
  return_on_equity_percent : Option ℚ
  altman_z_score : Option ℚ
deriving Repr, DecidableEq

/-- The pure body of `calculate_financial_ratios` (analysis.py lines 59-141):
given the two statement `Series` and the live market cap, compute the four
metrics. -/
def computeRatios (balance_sheet income_statement : Series) (market_cap : ℚ) :
    RatioBundle :=
  let ni := net_income income_statement
  let pe_ratio :=
    if ni ≠ 0 ∧ market_cap ≠ 0 then some (market_cap / ni) else none
  let bv := book_value balance_sheet
  let pb_ratio :=
    if bv ≠ 0 ∧ market_cap ≠ 0 then some (market_cap / bv) else none
  let roe :=
    if bv ≠ 0 ∧ ni ≠ 0 then some (ni / bv * 100) else none
  let ta := total_assets balance_sheet
  let z_score :=
    if ta > 0 then
      let A := working_capital balance_sheet / ta
      let B := retained_earnings balance_sheet / ta
      let C := ebit income_statement / ta
      let D := if total_liabilities balance_sheet ≠ 0 then
                 market_cap / total_liabilities balance_sheet else 0
      let E := total_revenue income_statement / ta
      some (1.2 * A + 1.4 * B + 3.3 * C + 0.6 * D + 1.0 * E)
    else none
  { p_e_ratio := pe_ratio
    p_b_ratio := pb_ratio
    return_on_equity_percent := roe
    altman_z_score := z_score }

/-! ## Persistence schema and queries (src/db/models.py, analysis.py) -/

/-- A ticker, modelled as a sequence of characters (a Python string). -/
abbrev Ticker := List Char

/-- Python's `str.upper()` on a ticker. -/
def upper (t : Ticker) : Ticker := t.map Char.toUpper

/-- A row of the `financial_statements` table (models.py). Identity =
(ticker, statement_type, period); `data` is the opaque statement payload. -/
structure FinancialStatement where
  ticker : Ticker
  statement_type : String
  period : Nat
  data : Series
deriving Repr, DecidableEq

/-- The statement store: the `financial_statements` table contents. -/
abbrev StatementStore := List FinancialStatement

/-- The query of `get_financial_data`:
`db.query(FinancialStatement).filter(ticker == ticker.upper(),
statement_type == stype).order_by(period.desc()).first()` — the matching
record with the largest period (the first match wins ties). -/
def latestStatement (db : StatementStore) (t : Ticker) (stype : String) :
    Option FinancialStatement :=
  let matching := db.filter fun r =>
    r.ticker == upper t && r.statement_type == stype
  matching.foldl
    (fun acc r =>
      match acc with
      | none => some r
      | some b => if r.period > b.period then some r else some b)
    none

/-- Python exceptions, split the way analysis.py's handlers split them. -/
inductive PyErr where
  | valueError (msg : String)
  | other (msg : String)
deriving Repr, DecidableEq

/-- `get_financial_data` (analysis.py): the latest balance sheet and income
statement for the ticker; raises `ValueError` if either is absent. -/
def get_financial_data (db : StatementStore) (ticker : Ticker) :
    Except PyErr (Series × Series) :=
  match latestStatement db ticker "balance_sheet",
        latestStatement db ticker "income_statement" with
  | some b, some i => .ok (b.data, i.data)
  | _, _ => .error (.valueError
      ("Financial data not found for " ++ String.mk ticker ++
       ". Please fetch it first."))

/-- The value returned by `calculate_financial_ratios`: either the ratio
bundle or a structured `{"error": ...}` payload. -/
inductive RatioResult where
  | ok (bundle : RatioBundle)
  | error (msg : String)
deriving Repr, DecidableEq

/-- `calculate_financial_ratios` (analysis.py): load the two statements,
fetch the live market cap (an external call that may itself raise, hence a
parameter of type `Except PyErr ℚ`), compute the bundle; `except ValueError`
returns the message as the error payload, `except Exception` wraps it. -/
def calculate_financial_ratios (db : StatementStore) (ticker : Ticker)
    (marketCap : Except PyErr ℚ) : RatioResult :=
  let body : Except PyErr RatioBundle := do
    let fd ← get_financial_data db ticker
    let mc ← marketCap
    pure (computeRatios fd.1 fd.2 mc)
  match body with
  | .ok b => .ok b
  | .error (.valueError m) => .error m
  | .error (.other m) =>
      .error ("An unexpected error occurred during analysis: " ++ m)

/-! ## Fundamentals ingester (src/services/financial_data.py,
`fetch_and_store_statements`) -/

/-- Two statement rows with the same value of the `_ticker_statement_period_uc`
uniqueness identity. -/
def sameIdentity (a b : FinancialStatement) : Bool :=
  a.ticker == b.ticker && a.statement_type == b.statement_type &&
  a.period == b.period

/-- The statement data fetched from the provider for one ticker, one list of
(period, line items) per statement type, in the iteration order of the
source's `statement_map` dict. -/
structure FetchedStatements where
  income_statement : List (Nat × Series)
  balance_sheet : List (Nat × Series)
  cash_flow : List (Nat × Series)
deriving Repr, DecidableEq

/-- The records the ingest loop builds, in iteration order. Each
`db.merge(db_record)` call reconciles on the primary key, and the records are
constructed with `id=None`, so every merge enqueues a plain INSERT of a new
row (the unique constraint plays no part at merge time); `new_records`
therefore collects exactly these rows. -/
def statementRows (t : Ticker) (f : FetchedStatements) :
    List FinancialStatement :=
  (f.income_statement.map fun pr =>
    (⟨upper t, "income_statement", pr.1, pr.2⟩ : FinancialStatement))
  ++ (f.balance_sheet.map fun pr =>
    (⟨upper t, "balance_sheet", pr.1, pr.2⟩ : FinancialStatement))
  ++ (f.cash_flow.map fun pr =>
    (⟨upper t, "cash_flow", pr.1, pr.2⟩ : FinancialStatement))

/-- The error `db.commit()` raises when a flushed INSERT violates the
`_ticker_statement_period_uc` unique constraint. -/
def integrity_error_msg : String :=
  "IntegrityError: duplicate key value violates unique constraint " ++
  "_ticker_statement_period_uc"

/-- The flush performed by `db.commit()`: the pending INSERTs are applied in
order, each checked against the table contents (including rows flushed
earlier in the same transaction) under the unique constraint on (ticker,
statement_type, period); a violation raises IntegrityError, failing the
whole transaction. -/
def insertAll (store : StatementStore) (rows : List FinancialStatement) :
    Except String StatementStore :=
  match rows with
  | [] => .ok store
  | r :: rest =>
      if store.any (fun x => sameIdentity x r) then .error integrity_error_msg
      else insertAll (store ++ [r]) rest

/-- The observable outcome of `fetch_and_store_statements`: the resulting
table contents, whether `db.commit()` completed, the length of the
`new_records` list, and either the returned message or the raised error
(the function has no try/except, so a commit failure propagates). -/
structure IngestOutcome where
  store : StatementStore
  committed : Bool
  new_records_count : Nat
  result : Except String String
deriving Repr

/-- `fetch_and_store_statements` (financial_data.py): iterate the three
statement types in dict order, `db.merge` every fetched row (each an enqueued
INSERT, since the records carry no primary key), then `db.commit()`. If the
flush violates the unique constraint — as it does whenever an identity is
already stored — IntegrityError propagates and the table is unchanged;
otherwise the rows are committed and the message reports `len(new_records)`. -/
def fetch_and_store_statements (store : StatementStore) (ticker : Ticker)
    (fetched : FetchedStatements) : IngestOutcome :=
  match insertAll store (statementRows ticker fetched) with
  | .ok store' =>
      { store := store'
        committed := true
        new_records_count := (statementRows ticker fetched).length
        result := .ok ("Successfully fetched and stored " ++
          toString (statementRows ticker fetched).length ++
          " statements for " ++ String.mk ticker) }
  | .error e =>
      { store := store
        committed := false
        new_records_count := (statementRows ticker fetched).length
        result := .error e }

/-! ## OHLCV fetcher (src/services/financial_data.py, `get_ohlcv`)

The database session is modelled transactionally: `committed` rows are the
durable table contents, `pending` rows were `db.add`ed but not committed;
`db.commit()` appends pending to committed, `db.rollback()` discards pending.
Queries see `committed ++ pending` (the session autoflushes pending rows).
Each session operation inside the `try` block (the existence query, `db.add`,
`db.commit`) is fallible: operation number `failAt` raises `err`, modelling
an arbitrary persistence error. -/

/-- A row of the `ohlcv_data` table (models.py); identity = (ticker, date).
Field names follow the local variables `open_val` … `volume_val` of the
source. -/
structure OhlcvRecord where
  ticker : Ticker
  date : Nat
  open_val : ℚ
  high_val : ℚ
  low_val : ℚ
  close_val : ℚ
  volume_val : ℤ
deriving Repr, DecidableEq

/-- One row of the fetched price-history DataFrame. -/
structure Bar where
  Open : ℚ
  High : ℚ
  Low : ℚ
  Close : ℚ
  Volume : ℤ
deriving Repr, DecidableEq

/-- The database session state for the OHLCV path. `ops` counts the session
operations performed so far (for fault injection), `commits` the number of
`db.commit()` calls that completed. -/
structure OhlcvSession where
  committed : List OhlcvRecord
  pending : List OhlcvRecord
  commits : Nat
  ops : Nat
deriving Repr, DecidableEq

/-- Run one fallible session operation: operation number `failAt` raises
`err`; every operation advances the operation counter. -/
def tryOp (failAt : Option Nat) (err : String) (s : OhlcvSession) :
    Except (String × OhlcvSession) OhlcvSession :=
  let s' := { s with ops := s.ops + 1 }
  if failAt = some s.ops then .error (err, s') else .ok s'

/-- Does the session (committed and pending rows) already hold a bar for
(ticker, date)? -/
def hasBar (rows : List OhlcvRecord) (t : Ticker) (d : Nat) : Bool :=
  rows.any fun r => r.ticker == t && r.date == d

/-- The upsert loop of `get_ohlcv`: for each fetched (date, row), query for an
existing (ticker.upper(), date) record; skip if present, otherwise `db.add` a
new record. -/
def upsertBars (failAt : Option Nat) (err : String) (t : Ticker)
    (hist : List (Nat × Bar)) (s : OhlcvSession) :
    Except (String × OhlcvSession) OhlcvSession :=
  match hist with
  | [] => .ok s
  | (date, row) :: rest =>
      match tryOp failAt err s with
      | .error e => .error e
      | .ok s1 =>
        if hasBar (s1.committed ++ s1.pending) (upper t) date then
          upsertBars failAt err t rest s1
        else
          match tryOp failAt err s1 with
          | .error e => .error e
          | .ok s2 =>
            let db_record : OhlcvRecord :=
              ⟨upper t, date, row.Open, row.High, row.Low, row.Close,
               row.Volume⟩
            upsertBars failAt err t rest
              { s2 with pending := s2.pending ++ [db_record] }

/-- `get_ohlcv` (financial_data.py), with the persistence handle supplied:
if the fetched history is nonempty, run the upsert loop and `db.commit()`
inside `try`; on any raised error, `db.rollback()` and re-raise; the fetched
series is returned on success. The first component is the final session, the
second the Python return/raise. -/
def get_ohlcv (failAt : Option Nat) (err : String) (t : Ticker)
    (hist : List (Nat × Bar)) (s : OhlcvSession) :
    OhlcvSession × Except String (List (Nat × Bar)) :=
  if hist.isEmpty then (s, .ok hist)
  else
    match upsertBars failAt err t hist s with
    | .error (e, sErr) => ({ sErr with pending := [] }, .error e)
    | .ok s1 =>
      match tryOp failAt err s1 with
      | .error (e, sErr) => ({ sErr with pending := [] }, .error e)
      | .ok s2 =>
        ({ s2 with committed := s2.committed ++ s2.pending, pending := [],
                   commits := s2.commits + 1 }, .ok hist)

/-! ## Earnings-calendar fetcher -/

/-- One row of the provider's CSV feed: a symbol plus the remaining fields as
a mapping. -/
structure CsvRow where
  symbol : Ticker
  fields : List (String × String)
deriving Repr, DecidableEq

/-- The value returned by the earnings-calendar fetcher: a structured error,
an informational (non-error) message, or the matching rows. -/
inductive EarningsResult where
  | error (msg : String)
  | message (msg : String)
  | events (rows : List CsvRow)
deriving Repr, DecidableEq

/-- Modelled from the spec: `get_earnings_calendar` is invoked from the HTTP
layer (`src/api/v1/endpoints/data.py`) but its definition is not among the
provided source files. Per spec §4.4: given a ticker and a horizon token,
fetch a CSV feed (here a parameter: `none` models an empty provider
response), filter rows whose symbol matches the ticker case-insensitively via
uppercasing, and return the matching rows; a missing API key or an empty
response yields a structured error distinguishable from the informational
"no events found" message. -/
def get_earnings_calendar (apiKey : Option String) (csv : Option (List CsvRow))
    (ticker : Ticker) (horizon : String) : EarningsResult :=
  match apiKey with
  | none => .error "Alpha Vantage API key is not configured"
  | some _ =>
    match csv with
    | none => .error "Empty response from earnings calendar provider"
    | some rows =>
      let matching := rows.filter fun r => upper r.symbol == upper ticker
      if matching.isEmpty then
        .message ("No earnings events found for " ++ String.mk ticker ++
          " in the next " ++ horizon)
      else .events matching

/-! ## Concrete inputs used by the worked example and the witnesses -/

/-- The balance sheet of the spec's worked example (§8). -/
def exampleBalanceSheet : Series :=
  [("TotalAssets", some 100), ("WorkingCapital", some 20),
   ("RetainedEarnings", some 10),
   ("TotalLiabilitiesNetMinorityInterest", some 40),
   ("StockholdersEquity", some 30)]

/-- The income statement of the spec's worked example (§8). -/
def exampleIncomeStatement : Series :=
  [("NetIncome", some 5), ("EBIT", some 8), ("TotalRevenue", some 50)]

/-- A store holding exactly the worked example's two statements. -/
def exampleStore : StatementStore :=
  [⟨['A','A','P','L'], "balance_sheet", 0, exampleBalanceSheet⟩,
   ⟨['A','A','P','L'], "income_statement", 0, exampleIncomeStatement⟩]

/-- A series whose only line item is a zero net income. -/
def zeroSeries : Series := [("NetIncome", some 0)]

/-- An income statement whose `EBIT` line item is present with value 0. -/
def ebitZeroIncome : Series :=
  [("EBIT", some 0), ("NetIncome", some 5),
   ("InterestExpense", some (-2)), ("TaxProvision", some 3)]

/-- A CSV row of the earnings feed for symbol `A`. -/
def exampleCsvRow : CsvRow := ⟨['A'], [("reportDate", "2026-01-01")]⟩

/-! ## Claim C1 -/

set_option maxRecDepth 100000 in
/-- Claim C1, counterexample: on the spec's worked example the ratio
calculator does NOT return altman_z_score = 2.044 — the claim as stated is
false at this concrete input. -/
theorem C1_worked_example_counterexample :
    calculate_financial_ratios exampleStore ['A','A','P','L'] (.ok 60) ≠
      .ok { p_e_ratio := some 12, p_b_ratio := some 2,
            return_on_equity_percent := some (500/30),
            altman_z_score := some (2044/1000) } := by
  with_unfolding_all decide

set_option maxRecDepth 100000 in
/-- Claim C1 (amended): on the worked example the calculator returns
p_e_ratio = 12, p_b_ratio = 2, return_on_equity_percent = 500/30, and
altman_z_score = 1.804: the code derives working capital only from
Current Assets − Current Liabilities (both absent here, so A = 0, and the
`WorkingCapital` line item is never consulted), giving
Z = 1.4·0.1 + 3.3·0.08 + 0.6·1.5 + 1.0·0.5 = 1.804. -/
theorem C1_worked_example :
    calculate_financial_ratios exampleStore ['A','A','P','L'] (.ok 60) =
      .ok { p_e_ratio := some 12, p_b_ratio := some 2,
            return_on_equity_percent := some (500/30),
            altman_z_score := some (1804/1000) } := by
  with_unfolding_all decide

/-! ## Claim C3 -/

/-- Claim C3: `calculate_financial_ratios` never propagates an exception:
when no balance-sheet or income-statement row exists for the ticker it
returns the structured "fetch it first" error payload; when the market-cap
lookup raises any other exception the result is still an error payload; and
in every case the result is either a bundle or an error payload, never a
raised exception. -/
theorem C3_no_exception_propagation (db : StatementStore) (t : Ticker)
    (mc : Except PyErr ℚ) :
    ((latestStatement db t "balance_sheet" = none ∨
      latestStatement db t "income_statement" = none) →
      calculate_financial_ratios db t mc =
        .error ("Financial data not found for " ++ String.mk t ++
          ". Please fetch it first."))
    ∧ (∀ m, mc = .error (.other m) →
        ∃ s, calculate_financial_ratios db t mc = .error s)
    ∧ ((∃ s, calculate_financial_ratios db t mc = .error s) ∨
       (∃ b, calculate_financial_ratios db t mc = .ok b)) := by
  refine ⟨?_, ?_, ?_⟩
  · intro h
    unfold calculate_financial_ratios get_financial_data
    rcases h with h | h <;> rw [h] <;> cases latestStatement db t "balance_sheet" <;>
      cases latestStatement db t "income_statement" <;> rfl
  · intro m hm
    unfold calculate_financial_ratios get_financial_data
    subst hm
    cases hb : latestStatement db t "balance_sheet" <;>
      cases hi : latestStatement db t "income_statement" <;>
      exact ⟨_, rfl⟩
  · unfold calculate_financial_ratios get_financial_data
    cases hb : latestStatement db t "balance_sheet" <;>
      cases hi : latestStatement db t "income_statement" <;>
      cases mc <;> first
        | exact Or.inl ⟨_, rfl⟩
        | exact Or.inr ⟨_, rfl⟩
        | skip
    case some.some.error e => cases e <;> exact Or.inl ⟨_, rfl⟩

/-- Claim C3, witness: on an empty store the calculator returns the
"fetch it first" error payload. -/
theorem C3_no_exception_propagation_witness :
    (latestStatement [] ['A'] "balance_sheet" = none ∨
      latestStatement [] ['A'] "income_statement" = none)
    ∧ calculate_financial_ratios [] ['A'] (.ok 0) =
        .error ("Financial data not found for " ++ String.mk ['A'] ++
          ". Please fetch it first.") :=
  ⟨Or.inl rfl, (C3_no_exception_propagation [] ['A'] (.ok 0)).1 (Or.inl rfl)⟩

/-! ## Claim C4 -/

/-- Claim C4: null policy of the simple ratios — P/E equals
market_cap / net_income and is None whenever net_income or market_cap is
falsy; P/B equals market_cap / book_value with the same policy; ROE% equals
(net_income / book_value) · 100 and is None when net_income or book_value is
falsy. -/
theorem C4_simple_ratio_null_policy (bs inc : Series) (mc : ℚ) :
    ((computeRatios bs inc mc).p_e_ratio =
      if net_income inc ≠ 0 ∧ mc ≠ 0 then some (mc / net_income inc) else none)
    ∧ ((net_income inc = 0 ∨ mc = 0) →
      (computeRatios bs inc mc).p_e_ratio = none)
    ∧ ((computeRatios bs inc mc).p_b_ratio =
      if book_value bs ≠ 0 ∧ mc ≠ 0 then some (mc / book_value bs) else none)
    ∧ ((book_value bs = 0 ∨ mc = 0) →
      (computeRatios bs inc mc).p_b_ratio = none)
    ∧ ((computeRatios bs inc mc).return_on_equity_percent =
      if book_value bs ≠ 0 ∧ net_income inc ≠ 0 then
        some (net_income inc / book_value bs * 100) else none)
    ∧ ((net_income inc = 0 ∨ book_value bs = 0) →
      (computeRatios bs inc mc).return_on_equity_percent = none) := by
  refine ⟨rfl, ?_, rfl, ?_, rfl, ?_⟩ <;>
    · intro h
      simp only [computeRatios]
      rw [if_neg]
      tauto

/-- Claim C4, witness: zero net income forces a None P/E even with a nonzero
market cap. -/
theorem C4_simple_ratio_null_policy_witness :
    (net_income zeroSeries = 0 ∨ (60 : ℚ) = 0)
    ∧ (computeRatios zeroSeries zeroSeries 60).p_e_ratio = none :=
  ⟨Or.inl (by with_unfolding_all decide),
   (C4_simple_ratio_null_policy zeroSeries zeroSeries 60).2.1
     (Or.inl (by with_unfolding_all decide))⟩

/-! ## Claim C5 -/

/-- Claim C5: the Altman Z-Score is None when total_assets ≤ 0 regardless of
all other inputs; when total_assets > 0 it equals
1.2·A + 1.4·B + 3.3·C + 0.6·D + 1.0·E with A = working_capital/total_assets,
B = retained_earnings/total_assets, C = EBIT/total_assets,
D = market_cap/total_liabilities (0 when total_liabilities is falsy), and
E = total_revenue/total_assets. -/
theorem C5_altman_z_score (bs inc : Series) (mc : ℚ) :
    (total_assets bs ≤ 0 → (computeRatios bs inc mc).altman_z_score = none)
    ∧ (total_assets bs > 0 → (computeRatios bs inc mc).altman_z_score =
        some (1.2 * (working_capital bs / total_assets bs)
            + 1.4 * (retained_earnings bs / total_assets bs)
            + 3.3 * (ebit inc / total_assets bs)
            + 0.6 * (if total_liabilities bs ≠ 0 then
                mc / total_liabilities bs else 0)
            + 1.0 * (total_revenue inc / total_assets bs))) := by
  constructor
  · intro h
    simp only [computeRatios]
    rw [if_neg]
    exact not_lt.mpr h
  · intro h
    simp only [computeRatios]
    rw [if_pos h]

/-- Claim C5, witness: with no `Total Assets` line item (so total_assets = 0)
the Z-score is None. -/
theorem C5_altman_z_score_witness :
    total_assets zeroSeries ≤ 0
    ∧ (computeRatios zeroSeries zeroSeries 60).altman_z_score = none :=
  ⟨by with_unfolding_all decide,
   (C5_altman_z_score zeroSeries zeroSeries 60).1
     (by with_unfolding_all decide)⟩

/-! ## Claim C10 -/

/-- Claim C10: whenever the looked-up EBIT/Operating Income value is falsy
(including a line item present with value exactly 0), the derived-EBIT branch
runs: EBIT = net_income + |interest_expense| + tax_provision when net_income
is truthy, and 0 when net_income is falsy. -/
theorem C10_ebit_zero_fallback (inc : Series)
    (h : safe_get inc ebit_keys = 0) :
    ebit inc = if net_income inc ≠ 0
      then net_income inc + |interest_expense inc| + tax_provision inc
      else 0 := by
  unfold ebit
  simp [h]

/-- Claim C10, witness: an income statement whose `EBIT` item is present with
value exactly 0 takes the fallback branch, giving 5 + |−2| + 3 = 10. -/
theorem C10_ebit_zero_fallback_witness :
    safe_get ebitZeroIncome ebit_keys = 0
    ∧ ebit ebitZeroIncome = (if net_income ebitZeroIncome ≠ 0
        then net_income ebitZeroIncome + |interest_expense ebitZeroIncome| +
          tax_provision ebitZeroIncome
        else 0) :=
  ⟨by with_unfolding_all decide,
   C10_ebit_zero_fallback ebitZeroIncome (by with_unfolding_all decide)⟩

/-! ## Claim C8 -/

/-- Claim C8 (spec-modelled): the earnings-calendar fetcher, given a ticker
and horizon token, returns the CSV rows whose symbol matches the ticker
case-insensitively via uppercasing; with an unconfigured API key it returns a
structured error payload that is never the informational "no events found"
message, and no exception. -/
theorem C8_earnings_calendar (t : Ticker) (h : String) :
    (∀ csv, get_earnings_calendar none csv t h =
      .error "Alpha Vantage API key is not configured")
    ∧ (∀ csv m, get_earnings_calendar none csv t h ≠ .message m)
    ∧ (∀ k rows, (rows.filter fun r => upper r.symbol == upper t) ≠ [] →
        get_earnings_calendar (some k) (some rows) t h =
          .events (rows.filter fun r => upper r.symbol == upper t)) := by
  refine ⟨fun csv => rfl, fun csv m => by simp [get_earnings_calendar], ?_⟩
  intro k rows hne
  simp only [get_earnings_calendar]
  rw [if_neg]
  simpa [List.isEmpty_iff] using hne

/-- Claim C8, witness: a lowercase query ticker matches an uppercase feed
symbol and the matching row is returned. -/
theorem C8_earnings_calendar_witness :
    (([exampleCsvRow].filter fun r => upper r.symbol == upper ['a']) ≠ [])
    ∧ get_earnings_calendar (some "k") (some [exampleCsvRow]) ['a'] "3month" =
        .events ([exampleCsvRow].filter fun r => upper r.symbol == upper ['a']) :=
  ⟨by with_unfolding_all decide,
   (C8_earnings_calendar ['a'] "3month").2.2 "k" [exampleCsvRow]
     (by with_unfolding_all decide)⟩

/-! ## Claim C2 -/

theorem insertAll_error_of_dup :
    ∀ (rows : List FinancialStatement) (store : StatementStore),
    (∃ r ∈ rows, ∃ x ∈ store, sameIdentity x r = true) →
    insertAll store rows = .error integrity_error_msg := by
  intro rows
  induction rows with
  | nil =>
    intro store h
    obtain ⟨r, hr, _⟩ := h
    cases hr
  | cons a rest ih =>
    intro store h
    by_cases ha : store.any (fun x => sameIdentity x a) = true
    · unfold insertAll
      rw [if_pos ha]
    · unfold insertAll
      rw [if_neg ha]
      apply ih
      obtain ⟨r, hr, x, hx, hid⟩ := h
      rcases List.mem_cons.mp hr with hr | hr
      · exfalso
        apply ha
        rw [List.any_eq_true]
        refine ⟨x, hx, ?_⟩
        rw [hr] at hid
        exact hid
      · exact ⟨r, hr, x, List.mem_append.mpr (Or.inl hx), hid⟩

/-- A store already holding the one statement row the provider returns. -/
def dupStore : StatementStore :=
  [⟨['A'], "income_statement", 1, [("NetIncome", some 5)]⟩]

/-- Fetched data whose only (statement_type, period) pair is already present
in `dupStore` with the identical payload. -/
def dupFetched : FetchedStatements :=
  ⟨[(1, [("NetIncome", some 5)])], [], []⟩

/-- Claim C2, counterexample: re-running the ingester for a ticker whose
(statement_type, period) pairs are all already present does not produce the
claimed outcome. `db.merge` reconciles on the primary key and the records are
built with `id=None`, so each merge enqueues a fresh INSERT; `db.commit()`
then raises IntegrityError against the uniqueness constraint. No result
message is returned at all (so nothing "reports zero new records"), no commit
completes, and the store is unchanged; the error propagates to the caller. -/
theorem C2_idempotence_counterexample :
    (fetch_and_store_statements dupStore ['A'] dupFetched).result
      = .error integrity_error_msg
    ∧ (fetch_and_store_statements dupStore ['A'] dupFetched).committed
      = false
    ∧ (fetch_and_store_statements dupStore ['A'] dupFetched).store
      = dupStore := by
  refine ⟨?_, ?_, ?_⟩ <;> with_unfolding_all rfl

/-- Claim C2 (amended): re-running the ingester for a ticker with at least
one fetched (statement_type, period) pair already present in the store — in
particular for a fully ingested ticker — performs no commit and returns no
result message: because `db.merge` reconciles on the primary key and the
records carry none, every merge enqueues a fresh INSERT, and `db.commit()`
raises IntegrityError against the uniqueness constraint; the store is left
unchanged and the error propagates to the caller. -/
theorem C2_ingest_rerun (store : StatementStore) (t : Ticker)
    (f : FetchedStatements)
    (h : ∃ r ∈ statementRows t f, ∃ x ∈ store, sameIdentity x r = true) :
    (fetch_and_store_statements store t f).store = store
    ∧ (fetch_and_store_statements store t f).committed = false
    ∧ (fetch_and_store_statements store t f).result
      = .error integrity_error_msg := by
  unfold fetch_and_store_statements
  rw [insertAll_error_of_dup (statementRows t f) store h]
  exact ⟨rfl, rfl, rfl⟩

/-- Claim C2, witness: on the concrete already-ingested store the re-run
leaves the store unchanged (the commit having failed). -/
theorem C2_ingest_rerun_witness :
    (∃ r ∈ statementRows ['A'] dupFetched, ∃ x ∈ dupStore,
      sameIdentity x r = true)
    ∧ (fetch_and_store_statements dupStore ['A'] dupFetched).store
      = dupStore :=
  ⟨by with_unfolding_all decide,
   (C2_ingest_rerun dupStore ['A'] dupFetched
     (by with_unfolding_all decide)).1⟩

/-! ## Claims C6, C7 and C9 -/

def KeysNodup (rows : List OhlcvRecord) : Prop :=
  rows.Pairwise fun a b => ¬(a.ticker = b.ticker ∧ a.date = b.date)

theorem hasBar_append (l1 l2 : List OhlcvRecord) (tk : Ticker) (d : Nat) :
    hasBar (l1 ++ l2) tk d = (hasBar l1 tk d || hasBar l2 tk d) := by
  simp [hasBar, List.any_append]

theorem hasBar_eq_false_iff (l : List OhlcvRecord) (tk : Ticker) (d : Nat) :
    hasBar l tk d = false ↔ ∀ r ∈ l, ¬(r.ticker = tk ∧ r.date = d) := by
  simp [hasBar, List.any_eq_false, not_and]

theorem keysNodup_append_singleton (l : List OhlcvRecord) (r0 : OhlcvRecord)
    (h : KeysNodup l) (hf : hasBar l r0.ticker r0.date = false) :
    KeysNodup (l ++ [r0]) := by
  unfold KeysNodup at h ⊢
  rw [List.pairwise_append]
  refine ⟨h, List.pairwise_singleton _ _, ?_⟩
  intro a ha b hb
  rw [List.mem_singleton] at hb
  rw [hb]
  exact (hasBar_eq_false_iff l r0.ticker r0.date).mp hf a ha

theorem tryOp_none (err : String) (s : OhlcvSession) :
    tryOp none err s = .ok { s with ops := s.ops + 1 } := by
  simp [tryOp]

theorem upsertBars_none_spec (t : Ticker) (err : String) :
    ∀ (hist : List (Nat × Bar)) (s : OhlcvSession), ∃ s',
    upsertBars none err t hist s = .ok s'
    ∧ s'.committed = s.committed
    ∧ s'.commits = s.commits
    ∧ (∃ ins, s'.pending = s.pending ++ ins ∧
        ∀ r ∈ ins, r.ticker = upper t ∧ r.date ∈ hist.map Prod.fst ∧
          hasBar (s.committed ++ s.pending) (upper t) r.date = false)
    ∧ (KeysNodup (s.committed ++ s.pending) →
        KeysNodup (s'.committed ++ s'.pending))
    ∧ (∀ d bar, (d, bar) ∈ hist →
        hasBar (s'.committed ++ s'.pending) (upper t) d = true) := by
  intro hist
  induction hist with
  | nil =>
    intro s
    refine ⟨s, rfl, rfl, rfl, ⟨[], by simp, by simp⟩, fun h => h, ?_⟩
    intro d bar hd
    cases hd
  | cons pr rest ih =>
    intro s
    cases pr with
    | mk date row =>
      by_cases hb : hasBar (s.committed ++ s.pending) (upper t) date = true
      · -- skip branch
        obtain ⟨s', heq, hcom, hcommits, ⟨ins, hpend, hins⟩, hnodup, hcover⟩ :=
          ih { s with ops := s.ops + 1 }
        refine ⟨s', ?_, hcom, hcommits, ⟨ins, hpend, ?_⟩, hnodup, ?_⟩
        · simp only [upsertBars, tryOp_none]
          rw [if_pos hb]
          exact heq
        · intro r hr
          obtain ⟨h1, h2, h3⟩ := hins r hr
          exact ⟨h1, by simp only [List.map_cons]; exact List.mem_cons_of_mem _ h2, h3⟩
        · intro d bar hd
          rcases List.mem_cons.mp hd with hd | hd
          · rw [Prod.mk.injEq] at hd
            rw [hd.1, hcom, hpend, ← List.append_assoc, hasBar_append, hb]
            rfl
          · exact hcover d bar hd
      · -- insert branch
        rw [Bool.not_eq_true] at hb
        obtain ⟨s', heq, hcom, hcommits, ⟨ins, hpend, hins⟩, hnodup, hcover⟩ :=
          ih { s with
                ops := s.ops + 1 + 1
                pending := s.pending ++
                  [⟨upper t, date, row.Open, row.High, row.Low, row.Close,
                    row.Volume⟩] }
        refine ⟨s', ?_, hcom, hcommits,
          ⟨⟨upper t, date, row.Open, row.High, row.Low, row.Close,
            row.Volume⟩ :: ins, ?_, ?_⟩, ?_, ?_⟩
        · simp only [upsertBars, tryOp_none]
          rw [if_neg (by simp [hb])]
          exact heq
        · rw [hpend]
          simp
        · intro r hr
          rcases List.mem_cons.mp hr with hr | hr
          · subst hr
            exact ⟨rfl, by simp, hb⟩
          · obtain ⟨h1, h2, h3⟩ := hins r hr
            refine ⟨h1,
              by simp only [List.map_cons]; exact List.mem_cons_of_mem _ h2, ?_⟩
            rw [← List.append_assoc, hasBar_append] at h3
            exact (Bool.or_eq_false_iff.mp h3).1
        · intro hnd
          apply hnodup
          rw [← List.append_assoc]
          exact keysNodup_append_singleton _ _ hnd hb
        · intro d bar hd
          rcases List.mem_cons.mp hd with hd | hd
          · rw [Prod.mk.injEq] at hd
            rw [hd.1, hcom, hpend, ← List.append_assoc, ← List.append_assoc,
              hasBar_append]
            have hsing : hasBar
                [(⟨upper t, date, row.Open, row.High, row.Low, row.Close,
                  row.Volume⟩ : OhlcvRecord)] (upper t) date = true := by
              simp [hasBar]
            rw [hasBar_append, hsing]
            simp
          · exact hcover d bar hd

theorem tryOp_ok_inv (failAt : Option Nat) (err : String) (s s' : OhlcvSession)
    (h : tryOp failAt err s = .ok s') :
    s' = { s with ops := s.ops + 1 } := by
  unfold tryOp at h
  split at h
  · cases h
  · exact (Except.ok.injEq _ _ ▸ h).symm

theorem tryOp_error_inv (failAt : Option Nat) (err e : String)
    (s s' : OhlcvSession) (h : tryOp failAt err s = .error (e, s')) :
    e = err ∧ s' = { s with ops := s.ops + 1 } := by
  unfold tryOp at h
  split at h
  · injection h with h
    exact ⟨(Prod.mk.injEq .. ▸ h).1.symm, (Prod.mk.injEq .. ▸ h).2.symm⟩
  · cases h

theorem upsertBars_ok_inv (failAt : Option Nat) (err : String) (t : Ticker) :
    ∀ (hist : List (Nat × Bar)) (s s' : OhlcvSession),
    upsertBars failAt err t hist s = .ok s' →
    s'.committed = s.committed ∧ s'.commits = s.commits := by
  intro hist
  induction hist with
  | nil =>
    intro s s' h
    cases h
    exact ⟨rfl, rfl⟩
  | cons pr rest ih =>
    intro s s' h
    cases pr with
    | mk date row =>
      simp only [upsertBars] at h
      cases h1 : tryOp failAt err s with
      | error e => rw [h1] at h; cases h
      | ok s1 =>
        rw [h1] at h
        dsimp only [] at h
        obtain rfl := tryOp_ok_inv failAt err s s1 h1
        by_cases hb : hasBar (s.committed ++ s.pending) (upper t) date = true
        · rw [if_pos hb] at h
          obtain ⟨hc, hm⟩ := ih _ _ h
          exact ⟨hc, hm⟩
        · rw [Bool.not_eq_true] at hb
          rw [if_neg (by simp [hb])] at h
          cases h2 : tryOp failAt err { s with ops := s.ops + 1 } with
          | error e => rw [h2] at h; cases h
          | ok s2 =>
            rw [h2] at h
            dsimp only [] at h
            obtain rfl := tryOp_ok_inv failAt err _ s2 h2
            obtain ⟨hc, hm⟩ := ih _ _ h
            exact ⟨hc, hm⟩

theorem upsertBars_error_inv (failAt : Option Nat) (err : String)
    (t : Ticker) :
    ∀ (hist : List (Nat × Bar)) (s s' : OhlcvSession) (e : String),
    upsertBars failAt err t hist s = .error (e, s') →
    e = err ∧ s'.committed = s.committed ∧ s'.commits = s.commits := by
  intro hist
  induction hist with
  | nil =>
    intro s s' e h
    cases h
  | cons pr rest ih =>
    intro s s' e h
    cases pr with
    | mk date row =>
      simp only [upsertBars] at h
      cases h1 : tryOp failAt err s with
      | error p =>
        rw [h1] at h
        dsimp only [] at h
        injection h with h
        rw [h] at h1
        obtain ⟨he, hs⟩ := tryOp_error_inv failAt err e s s' h1
        exact ⟨he, by rw [hs], by rw [hs]⟩
      | ok s1 =>
        rw [h1] at h
        dsimp only [] at h
        obtain rfl := tryOp_ok_inv failAt err s s1 h1
        by_cases hb : hasBar (s.committed ++ s.pending) (upper t) date = true
        · rw [if_pos hb] at h
          obtain ⟨he, hc, hm⟩ := ih _ _ _ h
          exact ⟨he, hc, hm⟩
        · rw [Bool.not_eq_true] at hb
          rw [if_neg (by simp [hb])] at h
          cases h2 : tryOp failAt err { s with ops := s.ops + 1 } with
          | error p =>
            rw [h2] at h
            dsimp only [] at h
            injection h with h
            rw [h] at h2
            obtain ⟨he, hs⟩ := tryOp_error_inv failAt err e _ s' h2
            exact ⟨he, by rw [hs], by rw [hs]⟩
          | ok s2 =>
            rw [h2] at h
            dsimp only [] at h
            obtain rfl := tryOp_ok_inv failAt err _ s2 h2
            obtain ⟨he, hc, hm⟩ := ih _ _ _ h
            exact ⟨he, hc, hm⟩

/-- Claim C7: OHLCV persistence is atomic on failure — for every persistence
error raised during the upsert loop or commit, the transaction is rolled back
(the committed store is unchanged by this call, the pending rows discarded, no
commit counted) and the same error is re-raised to the caller. -/
theorem C7_rollback_on_error (failAt : Option Nat) (err : String) (t : Ticker)
    (hist : List (Nat × Bar)) (s : OhlcvSession) (e : String)
    (h : (get_ohlcv failAt err t hist s).2 = .error e) :
    e = err
    ∧ (get_ohlcv failAt err t hist s).1.committed = s.committed
    ∧ (get_ohlcv failAt err t hist s).1.pending = []
    ∧ (get_ohlcv failAt err t hist s).1.commits = s.commits := by
  unfold get_ohlcv at h ⊢
  by_cases hemp : hist.isEmpty
  · rw [if_pos hemp] at h
    cases h
  · rw [if_neg hemp] at h ⊢
    cases h1 : upsertBars failAt err t hist s with
    | error p =>
      cases p with
      | mk e' sErr =>
        rw [h1] at h
        dsimp only [] at h ⊢
        obtain ⟨he, hc, hm⟩ :=
          upsertBars_error_inv failAt err t hist s sErr e' h1
        injection h with h
        subst h
        exact ⟨he, hc, rfl, hm⟩
    | ok s1 =>
      rw [h1] at h
      dsimp only [] at h ⊢
      obtain ⟨hc1, hm1⟩ := upsertBars_ok_inv failAt err t hist s s1 h1
      cases h2 : tryOp failAt err s1 with
      | error p =>
        cases p with
        | mk e' sErr =>
          rw [h2] at h
          dsimp only [] at h ⊢
          obtain ⟨he, hs⟩ := tryOp_error_inv failAt err e' s1 sErr h2
          injection h with h
          subst h
          refine ⟨he, ?_, rfl, ?_⟩
          · rw [hs]
            exact hc1
          · rw [hs]
            exact hm1
      | ok s2 =>
        rw [h2] at h
        dsimp only [] at h
        cases h

/-- Claim C6 (amended): with a fresh request-scoped session, rows already in
the store are preserved verbatim (the new store is the old one plus
insertions), keys stay duplicate-free, only bars whose (uppercased ticker,
date) is absent are inserted and every fetched date ends up present, the
batch is committed exactly once when the fetched series is nonempty (an empty
fetch performs no commit), and the full fetched series is returned. -/
theorem C6_ohlcv_upsert (err : String) (t : Ticker) (hist : List (Nat × Bar))
    (s : OhlcvSession) (hp : s.pending = []) :
    (get_ohlcv none err t hist s).2 = .ok hist
    ∧ (∃ ins, (get_ohlcv none err t hist s).1.committed = s.committed ++ ins ∧
        ∀ r ∈ ins, r.ticker = upper t ∧ r.date ∈ hist.map Prod.fst ∧
          hasBar s.committed (upper t) r.date = false)
    ∧ (KeysNodup s.committed →
        KeysNodup (get_ohlcv none err t hist s).1.committed)
    ∧ (∀ d bar, (d, bar) ∈ hist →
        hasBar (get_ohlcv none err t hist s).1.committed (upper t) d = true)
    ∧ (get_ohlcv none err t hist s).1.commits =
        (if hist.isEmpty then s.commits else s.commits + 1) := by
  unfold get_ohlcv
  by_cases hemp : hist.isEmpty
  · rw [if_pos hemp] at *
    rw [List.isEmpty_iff] at hemp
    subst hemp
    refine ⟨rfl, ⟨[], by simp, by simp⟩, fun h => h, ?_, rfl⟩
    intro d bar hd
    cases hd
  · rw [if_neg hemp] at *
    obtain ⟨s', heq, hcom, hcommits, ⟨ins, hpend, hins⟩, hnodup, hcover⟩ :=
      upsertBars_none_spec t err hist s
    rw [heq]
    dsimp only []
    rw [tryOp_none err s']
    dsimp only []
    rw [hp] at hpend hins hnodup
    rw [List.append_nil] at hins hnodup
    rw [List.nil_append] at hpend
    refine ⟨rfl, ⟨ins, ?_, hins⟩, ?_, ?_, ?_⟩
    · rw [hcom, hpend]
    · intro hnd
      exact hnodup hnd
    · intro d bar hd
      exact hcover d bar hd
    · rw [hcommits, if_neg hemp]

def emptySession : OhlcvSession := ⟨[], [], 0, 0⟩

def bar0 : Bar := ⟨10, 12, 9, 11, 1000⟩

def hist0 : List (Nat × Bar) := [(0, bar0)]

/-- Claim C6, counterexample: for an empty fetched series no commit is
performed at all — the session is returned unchanged with commit count 0, not
1 — so "the batch is committed exactly once" fails for that series. -/
theorem C6_commit_counterexample :
    get_ohlcv none "db error" ['A'] [] emptySession = (emptySession, .ok [])
    ∧ (get_ohlcv none "db error" ['A'] [] emptySession).1.commits ≠
        emptySession.commits + 1 := by
  constructor
  · rfl
  · with_unfolding_all decide

/-- Claim C6, witness: a fresh session plus a one-bar series; the full
series is returned. -/
theorem C6_ohlcv_upsert_witness :
    emptySession.pending = []
    ∧ (get_ohlcv none "db error" ['A'] hist0 emptySession).2 = .ok hist0 :=
  ⟨rfl, (C6_ohlcv_upsert "db error" ['A'] hist0 emptySession rfl).1⟩

/-- Claim C7, witness: a persistence error at the very first session
operation leaves an empty store untouched and re-raises the error. -/
theorem C7_rollback_on_error_witness :
    ((get_ohlcv (some 0) "boom" ['A'] hist0 emptySession).2 = .error "boom")
    ∧ ("boom" = "boom"
      ∧ (get_ohlcv (some 0) "boom" ['A'] hist0 emptySession).1.committed =
          emptySession.committed
      ∧ (get_ohlcv (some 0) "boom" ['A'] hist0 emptySession).1.pending = []
      ∧ (get_ohlcv (some 0) "boom" ['A'] hist0 emptySession).1.commits =
          emptySession.commits) :=
  ⟨by rfl,
   C7_rollback_on_error (some 0) "boom" ['A'] hist0 emptySession "boom" (by rfl)⟩

theorem char_toNat_ofNat (m : Nat) (h : m.isValidChar) :
    (Char.ofNat m).toNat = m := by
  simp [Char.ofNat, h, Char.ofNatAux, Char.toNat, UInt32.toNat]

theorem char_toUpper_idem (c : Char) : c.toUpper.toUpper = c.toUpper := by
  by_cases h : 97 ≤ c.toNat ∧ c.toNat ≤ 122
  · have hv : (c.toNat - 32).isValidChar := by
      unfold Nat.isValidChar
      left
      omega
    have h1 : c.toUpper = Char.ofNat (c.toNat - 32) := by
      unfold Char.toUpper
      rw [if_pos]
      exact ⟨h.1, h.2⟩
    rw [h1]
    unfold Char.toUpper
    rw [if_neg]
    rw [char_toNat_ofNat _ hv]
    omega
  · have h1 : c.toUpper = c := by
      unfold Char.toUpper
      rw [if_neg]
      exact fun hc => h ⟨hc.1, hc.2⟩
    rw [h1, h1]

theorem upper_upper (t : Ticker) : upper (upper t) = upper t := by
  unfold upper
  rw [List.map_map]
  induction t with
  | nil => rfl
  | cons c cs ih =>
    simp only [List.map_cons, Function.comp_apply]
    rw [char_toUpper_idem c]
    rw [ih]

theorem statementRows_ticker (t : Ticker) (f : FetchedStatements)
    (r : FinancialStatement) (h : r ∈ statementRows t f) :
    r.ticker = upper t := by
  unfold statementRows at h
  rcases List.mem_append.mp h with h | h
  · rcases List.mem_append.mp h with h | h <;>
      · obtain ⟨pr, _, hr⟩ := List.mem_map.mp h
        rw [← hr]
  · obtain ⟨pr, _, hr⟩ := List.mem_map.mp h
    rw [← hr]

theorem statementRows_upper (t : Ticker) (f : FetchedStatements) :
    statementRows (upper t) f = statementRows t f := by
  simp only [statementRows, upper_upper]

theorem insertAll_ok_mem :
    ∀ (rows : List FinancialStatement) (store store' : StatementStore),
    insertAll store rows = .ok store' →
    ∀ r ∈ store', r ∈ store ∨ r ∈ rows := by
  intro rows
  induction rows with
  | nil =>
    intro store store' h r hr
    cases h
    exact Or.inl hr
  | cons a rest ih =>
    intro store store' h r hr
    unfold insertAll at h
    split at h
    · cases h
    · rcases ih _ _ h r hr with h1 | h1
      · rcases List.mem_append.mp h1 with h1 | h1
        · exact Or.inl h1
        · exact Or.inr (List.mem_cons.mpr (Or.inl (List.mem_singleton.mp h1)))
      · exact Or.inr (List.mem_cons_of_mem a h1)

theorem upsertBars_upper (failAt : Option Nat) (err : String) (t : Ticker) :
    ∀ (hist : List (Nat × Bar)) (s : OhlcvSession),
    upsertBars failAt err (upper t) hist s = upsertBars failAt err t hist s := by
  intro hist
  induction hist with
  | nil => intro s; rfl
  | cons pr rest ih =>
    intro s
    cases pr with
    | mk date row =>
      simp only [upsertBars, upper_upper, ih]

theorem get_ohlcv_upper (failAt : Option Nat) (err : String) (t : Ticker)
    (hist : List (Nat × Bar)) (s : OhlcvSession) :
    get_ohlcv failAt err (upper t) hist s = get_ohlcv failAt err t hist s := by
  unfold get_ohlcv
  rw [upsertBars_upper]

theorem latestStatement_upper (db : StatementStore) (t : Ticker)
    (stype : String) :
    latestStatement db (upper t) stype = latestStatement db t stype := by
  simp only [latestStatement, upper_upper]

theorem calc_ok_upper (db : StatementStore) (t : Ticker) (mc : Except PyErr ℚ) :
    ∀ b, calculate_financial_ratios db (upper t) mc = .ok b ↔
      calculate_financial_ratios db t mc = .ok b := by
  intro b
  unfold calculate_financial_ratios get_financial_data
  rw [latestStatement_upper, latestStatement_upper]
  cases latestStatement db t "balance_sheet" with
  | none =>
    cases latestStatement db t "income_statement" <;>
      simp [Bind.bind, Except.bind]
  | some bs =>
    cases latestStatement db t "income_statement" with
    | none => simp [Bind.bind, Except.bind]
    | some i => exact Iff.rfl

/-- Claim C9 (amended): every statement record created by ingestion and
every OHLCV record created by the upsert carries the uppercased ticker, and
all lookups uppercase their argument: ingestion produces the same store for
`t` and `t.upper()`, the OHLCV path behaves identically for both, and the
ratio calculator returns the same successful bundle for both. (Only
diagnostic message strings echo the ticker as passed.) -/
theorem C9_ticker_case_invariant (t : Ticker) (store : StatementStore) (f : FetchedStatements)
    (failAt : Option Nat) (err : String) (hist : List (Nat × Bar))
    (s : OhlcvSession) (db : StatementStore) (mc : Except PyErr ℚ) :
    (∀ r ∈ (fetch_and_store_statements store t f).store,
      r ∈ store ∨ r.ticker = upper t)
    ∧ (fetch_and_store_statements store (upper t) f).store =
        (fetch_and_store_statements store t f).store
    ∧ get_ohlcv failAt err (upper t) hist s = get_ohlcv failAt err t hist s
    ∧ (s.pending = [] →
        ∀ r ∈ (get_ohlcv none err t hist s).1.committed,
          r ∈ s.committed ∨ r.ticker = upper t)
    ∧ (∀ b, calculate_financial_ratios db (upper t) mc = .ok b ↔
        calculate_financial_ratios db t mc = .ok b) := by
  refine ⟨?_, ?_, get_ohlcv_upper failAt err t hist s, ?_, calc_ok_upper db t mc⟩
  · intro r hr
    unfold fetch_and_store_statements at hr
    cases hin : insertAll store (statementRows t f) with
    | ok store' =>
      rw [hin] at hr
      dsimp only [] at hr
      rcases insertAll_ok_mem (statementRows t f) store store' hin r hr
        with h | h
      · exact Or.inl h
      · exact Or.inr (statementRows_ticker t f r h)
    | error e =>
      rw [hin] at hr
      dsimp only [] at hr
      exact Or.inl hr
  · unfold fetch_and_store_statements
    rw [statementRows_upper]
    cases insertAll store (statementRows t f) <;> rfl
  · intro hp r hr
    unfold get_ohlcv at hr
    by_cases hemp : hist.isEmpty
    · rw [if_pos hemp] at hr
      exact Or.inl hr
    · rw [if_neg hemp] at hr
      obtain ⟨s', heq, hcom, hcommits, ⟨ins, hpend, hins⟩, hnodup, hcover⟩ :=
        upsertBars_none_spec t err hist s
      rw [heq] at hr
      dsimp only [] at hr
      rw [tryOp_none err s'] at hr
      dsimp only [] at hr
      rw [hcom, hpend, hp, List.nil_append] at hr
      rcases List.mem_append.mp hr with h | h
      · exact Or.inl h
      · exact Or.inr (hins r h).1

/-- Claim C9, counterexample: behaviour is not literally identical for `t`
and `t.upper()` — on an empty store the not-found error payload echoes the
ticker as passed, so the results for 'a' and 'A' differ as values. -/
theorem C9_ticker_case_counterexample :
    calculate_financial_ratios [] ['a'] (.ok 0) ≠
      calculate_financial_ratios [] ['A'] (.ok 0) := by
  with_unfolding_all decide

/-- Claim C9, witness: concrete instantiation — ingest for 'a' and 'A'
produce the same store, and all rows a fresh OHLCV upsert creates for 'a'
carry the uppercased ticker. -/
theorem C9_ticker_case_invariant_witness :
    ((fetch_and_store_statements [] (upper ['a']) ⟨[], [], []⟩).store =
      (fetch_and_store_statements [] ['a'] ⟨[], [], []⟩).store)
    ∧ (emptySession.pending = []
       ∧ ∀ r ∈ (get_ohlcv none "e" ['a'] hist0 emptySession).1.committed,
           r ∈ emptySession.committed ∨ r.ticker = upper ['a']) :=
  ⟨(C9_ticker_case_invariant ['a'] [] ⟨[], [], []⟩ none "e" hist0 emptySession [] (.ok 0)).2.1,
   ⟨rfl, (C9_ticker_case_invariant ['a'] [] ⟨[], [], []⟩ none "e" hist0 emptySession [] (.ok 0)).2.2.2.1 rfl⟩⟩

end StockEngine
